import Mathlib

/-!
Shallow embedding of `src/main.ts` (a Deno HTTP gateway that validates and
republishes Roblox place files).  Pure logic (field extraction, filename
splitting, header validation, request construction, response translation,
routing) is translated directly from the source; the runtime collaborators
(`fetch`, `TextDecoder`, `JSON.parse`, `serveDir`) are modelled as explicit
parameters collected in an `Env` record, and each `await`ed call site is
modelled by consulting the corresponding parameter.  JS strings appearing in
byte-level code are handled at the `List Char` / `List Nat` level; the
whitespace set of `trimStart` is modelled on its ASCII members, which covers
every byte the validation logic inspects.
-/

set_option autoImplicit false

namespace RbxGateway

/-- A JSON value, as produced by `JSON.parse` / consumed by `JSON.stringify`.
Parsed upstream values are forwarded untouched, so the exact numeric model
is irrelevant to the pipeline. -/
inductive Json where
  | nullV : Json
  | boolV : Bool → Json
  | numV : Int → Json
  | str : String → Json
  | arr : List Json → Json
  | obj : List (String × Json) → Json

/-- Body of an HTTP `Response` object. -/
inductive ResBody where
  | empty : ResBody
  | textBody : String → ResBody
  | jsonBody : Json → ResBody

/-- An HTTP response as observed by the caller: status, header list, body. -/
structure HttpResponse where
  status : Nat
  headers : List (String × String)
  body : ResBody

/-- `headers.set(k, v)` of the JS `Headers` class, modelled up to observation
by `getHeader`: replace the entry for `k` if present, else append. -/
def setHeader : List (String × String) → String → String → List (String × String)
  | [], k, v => [(k, v)]
  | p :: t, k, v => if p.1 == k then (k, v) :: t else p :: setHeader t k v

/-- `headers.get(k)`: first value stored under key `k`. -/
def getHeader (hs : List (String × String)) (k : String) : Option String :=
  (hs.find? (fun p => p.1 == k)).map (fun p => p.2)

/-- `corsHeaders` constant (src/main.ts lines 8-12). -/
def corsHeaders : List (String × String) :=
  [("Access-Control-Allow-Origin", "*"),
   ("Access-Control-Allow-Headers", "Content-Type"),
   ("Access-Control-Allow-Methods", "POST, GET, OPTIONS")]

/-- The `for (const [key, value] of Object.entries(corsHeaders)) headers.set(key, value)`
loops (src/main.ts lines 40-42 and 197-199). -/
def applyCors (hs : List (String × String)) : List (String × String) :=
  corsHeaders.foldl (fun acc p => setHeader acc p.1 p.2) hs

/-- Header object literal `{ "Content-Type": "application/json", ...corsHeaders }`. -/
def jsonContentHeaders : List (String × String) :=
  ("Content-Type", "application/json") :: corsHeaders

/-- `new Response(JSON.stringify({ error: msg }), { status, headers: {json, cors} })`. -/
def jsonErrorResponse (msg : String) (status : Nat) : HttpResponse :=
  { status := status, headers := jsonContentHeaders
    body := .jsonBody (.obj [("error", .str msg)]) }

/-- The uploaded `File` of the multipart form: its `name` and the bytes
obtained from `await file.arrayBuffer()`. -/
structure FileUpload where
  name : String
  data : List Nat

/-- The five fields read from `await req.formData()` (src/main.ts lines 62-66);
`none` models an absent field (JS `null`). -/
structure PublishForm where
  placeFile : Option FileUpload
  apiKey : Option String
  universeId : Option String
  placeId : Option String
  versionType : Option String

/-- The outbound `fetch` call of the publish pipeline: URL, method, header
object, raw body bytes. -/
structure FetchRequest where
  url : String
  method : String
  headers : List (String × String)
  body : List Nat

/-- Result of awaiting the publish `fetch`: either a response whose body was
read as text, or a thrown network-level error carrying `e.message`. -/
inductive FetchOutcome where
  | ok : Nat → String → FetchOutcome
  | nerr : String → FetchOutcome

/-- Result of the asset-proxy `fetch`: an upstream response (status, headers,
streamed body) or a thrown network error. -/
inductive AssetOutcome where
  | ok : Nat → List (String × String) → ResBody → AssetOutcome
  | err : String → AssetOutcome

/-- Result of `serveDir`: a response, a thrown `Deno.errors.NotFound`, or any
other thrown error. -/
inductive StaticOutcome where
  | ok : HttpResponse → StaticOutcome
  | notFound : StaticOutcome
  | ioError : StaticOutcome

/-- An inbound request as the dispatcher sees it: method, path, the `url`
query parameter (for `/asset`), and the parsed multipart form (for `/publish`). -/
structure ServerRequest where
  method : String
  path : String
  urlParam : Option String
  form : PublishForm

/-- The runtime collaborators of the handlers: outbound `fetch` for publish,
`fetch` for the asset proxy, `TextDecoder().decode`, `JSON.parse`
(`none` = thrown `SyntaxError`), and `serveDir`. -/
structure Env where
  fetch : FetchRequest → FetchOutcome
  assetFetch : String → AssetOutcome
  decode : List Nat → List Char
  jsonParse : String → Option Json
  serveDir : ServerRequest → StaticOutcome

/-- JS `s1 || s2` on strings: `s2` when `s1` is falsy (empty), else `s1`. -/
def jsOr (s d : String) : String := if s == "" then d else s

/-- The ASCII members of the whitespace class trimmed by JS `trimStart`. -/
def isJsSpace (c : Char) : Bool :=
  c == ' ' || c == '\t' || c == '\n' || c == '\r' || c == '\x0b' || c == '\x0c'

/-- `String.prototype.trimStart` at the character level. -/
def trimStartL (s : List Char) : List Char := s.dropWhile isJsSpace

/-- `String.prototype.startsWith pat` at the character level. -/
def startsWithL (pat : String) (s : List Char) : Bool := pat.data.isPrefixOf s

/-- `String.prototype.indexOf pat` at the character level (`none` = -1). -/
def listIndexOf (pat : List Char) : List Char → Option Nat
  | [] => none
  | c :: rest =>
    if pat.isPrefixOf (c :: rest) then some 0
    else (listIndexOf pat rest).map (fun n => n + 1)

/-- `String.prototype.split c` at the character level (single-char separator). -/
def splitOnCharAux (c : Char) : List Char → List Char → List (List Char)
  | [], acc => [acc.reverse]
  | x :: xs, acc =>
    if x == c then acc.reverse :: splitOnCharAux c xs [] else splitOnCharAux c xs (x :: acc)

/-- `filename.split('.').pop()?.toLowerCase() || ''` (src/main.ts line 76):
the last dot-separated segment of the filename, lowercased.  (`split` never
yields an empty array, so `pop()` is never `undefined`; `|| ''` only replaces
an empty segment with itself.) -/
def extOfL (name : List Char) : List Char :=
  ((splitOnCharAux '.' name []).getLast?.getD []).map Char.toLower

/-- `allowedExtensions = ['rbxl', 'rbxlx']` (src/main.ts line 77). -/
def allowedExtensionsL : List (List Char) := ["rbxl".data, "rbxlx".data]

/-- Lines 98-105: trim the decoded head, skip an `<?xml ... ?>` declaration
when present, and test that the rest starts with the literal `<roblox`. -/
def xmlHeaderOk (decoded : List Char) : Bool :=
  let head := trimStartL decoded
  let head2 :=
    if startsWithL "<?xml" head then
      match listIndexOf ("?>".data) head with
      | some idx => trimStartL (head.drop (idx + 2))
      | none => head
    else head
  startsWithL "<roblox" head2

/-- The 14-byte rbxl magic signature (src/main.ts line 113). -/
def rbxlMagic : List Nat :=
  [0x3C, 0x72, 0x6F, 0x62, 0x6C, 0x6F, 0x78, 0x21, 0x89, 0xFF, 0x0D, 0x0A, 0x1A, 0x0A]

/-- Lines 112-114: `sig.length !== expected.length || sig.some((byte, i) => byte !== expected[i])`. -/
def sigMismatch (fileData : List Nat) : Bool :=
  let sig := fileData.take 14
  (sig.length != rbxlMagic.length)
    || (List.range sig.length).any (fun i => sig.getD i 0 != rbxlMagic.getD i 0)

/-- The error responses returned by `handlePublish` (each is
`new Response(JSON.stringify({error: ...}), {status: 400, headers})`). -/
def missingFieldsResponse : HttpResponse :=
  jsonErrorResponse "Missing required form fields" 400

def extensionResponse : HttpResponse :=
  jsonErrorResponse "No selected file or file type not allowed (.rbxl, .rbxlx only)" 400

def emptyFileResponse : HttpResponse :=
  jsonErrorResponse "Uploaded file is empty" 400

def xmlHeaderResponse : HttpResponse :=
  jsonErrorResponse "RBXLX must start with <roblox (XML declaration allowed); got invalid XML header" 400

def signatureResponse : HttpResponse :=
  jsonErrorResponse "RBXL signature mismatch. Ensure you\x27re sending a valid .rbxl file." 400

/-- Lines 124-132: the upstream URL (template literal, values verbatim), the
content type matched to the extension, and the `apiHeaders` object. -/
def buildFetchRequest (apiKey universeId placeId versionType : String)
    (ext : List Char) (fileData : List Nat) : FetchRequest :=
  { url := "https://apis.roblox.com/universes/v1/" ++ universeId ++ "/places/"
      ++ placeId ++ "/versions?versionType=" ++ versionType
    method := "POST"
    headers :=
      [("x-api-key", apiKey),
       ("Content-Type", if ext == "rbxlx".data then "application/xml" else "application/octet-stream"),
       ("Accept", "application/json, text/plain;q=0.9, */*;q=0.1"),
       ("User-Agent", "roblox-publisher/1.0")]
    body := fileData }

/-- Lines 62-132 of `handlePublish`: validation and construction of the
outbound request.  Early `return new Response(...)` maps to `.error`; reaching
the `fetch` maps to `.ok` carrying the request about to be sent.  The JS
truthiness test `!file || !apiKey || ...` holds exactly when a field is absent
(`null`) or, for the string fields, the empty string. -/
def handlePublishCore (decode : List Nat → List Char) (form : PublishForm) :
    Except HttpResponse FetchRequest :=
  match form.placeFile, form.apiKey, form.universeId, form.placeId, form.versionType with
  | some file, some apiKey, some universeId, some placeId, some versionType =>
    if apiKey == "" || universeId == "" || placeId == "" || versionType == "" then
      .error missingFieldsResponse
    else
      let nameL := (jsOr file.name "").data
      let ext := extOfL nameL
      if nameL == [] || !(allowedExtensionsL.contains ext) then
        .error extensionResponse
      else
        let fileData := file.data
        if fileData.length == 0 then
          .error emptyFileResponse
        else
          if ext == "rbxlx".data then
            if !(xmlHeaderOk (decode (fileData.take 2048))) then
              .error xmlHeaderResponse
            else
              .ok (buildFetchRequest apiKey universeId placeId versionType ext fileData)
          else
            if sigMismatch fileData then
              .error signatureResponse
            else
              .ok (buildFetchRequest apiKey universeId placeId versionType ext fileData)
  | _, _, _, _, _ => .error missingFieldsResponse

/-- Lines 141-147: `JSON.parse(responseText)` with fallback
`{ message: responseText || "" }`. -/
def translateBody (parsed : Option Json) (responseText : String) : Json :=
  match parsed with
  | some j => j
  | none => .obj [("message", .str (jsOr responseText ""))]

/-- `handlePublish` (src/main.ts lines 58-160): run the validation core; on
success `await fetch(...)` and translate the upstream response (status
preserved, JSON content type); a thrown network error reaches the outer
`catch` which returns 500 with `Server error: e.message`. -/
def handlePublish (env : Env) (form : PublishForm) : HttpResponse :=
  match handlePublishCore env.decode form with
  | .error resp => resp
  | .ok freq =>
    match env.fetch freq with
    | .ok status responseText =>
      { status := status
        headers := jsonContentHeaders
        body := .jsonBody (translateBody (env.jsonParse responseText) responseText) }
    | .nerr msg => jsonErrorResponse ("Server error: " ++ msg) 500

/-- The outbound publish calls issued for a given form: empty when validation
fails, exactly the constructed request when it succeeds. -/
def publishCalls (env : Env) (form : PublishForm) : List FetchRequest :=
  match handlePublishCore env.decode form with
  | .error _ => []
  | .ok freq => [freq]

/-- `handleAssetProxy` (src/main.ts lines 15-55).  `!assetUrl` is true when
the query parameter is absent (`null`) or the empty string. -/
def handleAssetProxy (env : Env) (assetUrl? : Option String) : HttpResponse :=
  if assetUrl?.getD "" == "" then
    jsonErrorResponse "No asset URL provided" 400
  else
    let assetUrl := assetUrl?.getD ""
    if !(assetUrl.startsWith "https://assetdelivery.roblox.com/v1/asset/") then
      jsonErrorResponse "Invalid asset URL" 400
    else
      match env.assetFetch assetUrl with
      | .ok status hdrs body =>
        { status := status, headers := applyCors hdrs, body := body }
      | .err msg => jsonErrorResponse ("Failed to fetch asset: " ++ msg) 502

/-- The top-level `serve` handler (src/main.ts lines 163-201): OPTIONS
preflight, then routing to publish / asset / static serving, with the CORS
headers set on every static-path response before it is returned. -/
def serve (env : Env) (req : ServerRequest) : HttpResponse :=
  if req.method == "OPTIONS" then
    { status := 204, headers := corsHeaders, body := .empty }
  else if req.path == "/publish" && req.method == "POST" then
    handlePublish env req.form
  else if req.path == "/asset" then
    handleAssetProxy env req.urlParam
  else
    let response :=
      match env.serveDir req with
      | .ok r => r
      | .notFound => { status := 404, headers := [], body := .textBody "Not Found" }
      | .ioError => { status := 500, headers := [], body := .textBody "Internal Server Error" }
    { response with headers := applyCors response.headers }

/-- ASCII bytes of a string, for building concrete payloads. -/
def strToBytes (s : String) : List Nat := s.data.map Char.toNat

/-- A UTF-8 `TextDecoder` restricted to the ASCII payloads used in concrete
runs (on ASCII byte sequences it agrees with any faithful UTF-8 decoder). -/
def asciiDecode (bs : List Nat) : List Char := bs.map Char.ofNat

/-! ### Header-table lemmas -/

theorem getHeader_setHeader_self (hs : List (String × String)) (k v : String) :
    getHeader (setHeader hs k v) k = some v := by
  induction hs with
  | nil => simp [setHeader, getHeader]
  | cons p t ih =>
    cases h : p.1 == k with
    | true => simp [setHeader, h, getHeader, List.find?_cons]
    | false => simpa [setHeader, h, getHeader, List.find?_cons] using ih

theorem getHeader_setHeader_ne (hs : List (String × String)) (k k' v : String)
    (hne : k' ≠ k) : getHeader (setHeader hs k v) k' = getHeader hs k' := by
  induction hs with
  | nil => simp [setHeader, getHeader, List.find?_cons, Ne.symm hne]
  | cons p t ih =>
    cases h : p.1 == k with
    | true =>
      have hp : p.1 = k := eq_of_beq h
      simp [setHeader, h, getHeader, List.find?_cons, hp, Ne.symm hne]
    | false =>
      cases h2 : p.1 == k' with
      | true => simp [setHeader, h, getHeader, List.find?_cons, h2]
      | false => simpa [setHeader, h, getHeader, List.find?_cons, h2] using ih

/-- The three cross-origin headers are present with their fixed values. -/
def corsOkH (hs : List (String × String)) : Prop :=
  getHeader hs "Access-Control-Allow-Origin" = some "*" ∧
  getHeader hs "Access-Control-Allow-Headers" = some "Content-Type" ∧
  getHeader hs "Access-Control-Allow-Methods" = some "POST, GET, OPTIONS"

theorem corsOkH_applyCors (hs : List (String × String)) : corsOkH (applyCors hs) := by
  have e : applyCors hs =
      setHeader (setHeader (setHeader hs "Access-Control-Allow-Origin" "*")
        "Access-Control-Allow-Headers" "Content-Type")
        "Access-Control-Allow-Methods" "POST, GET, OPTIONS" := rfl
  refine ⟨?_, ?_, ?_⟩ <;> rw [e]
  · rw [getHeader_setHeader_ne _ _ _ _ (by decide), getHeader_setHeader_ne _ _ _ _ (by decide),
      getHeader_setHeader_self]
  · rw [getHeader_setHeader_ne _ _ _ _ (by decide), getHeader_setHeader_self]
  · rw [getHeader_setHeader_self]

theorem corsOkH_jsonContentHeaders : corsOkH jsonContentHeaders := ⟨rfl, rfl, rfl⟩

theorem corsOkH_corsHeaders : corsOkH corsHeaders := ⟨rfl, rfl, rfl⟩

/-! ### Signature-check lemmas -/

theorem sigMismatch_eq_false_iff (d : List Nat) :
    sigMismatch d = false ↔ d.take 14 = rbxlMagic := by
  constructor
  · intro h
    simp only [sigMismatch, Bool.or_eq_false_iff, bne_eq_false_iff_eq, List.any_eq_false,
      List.mem_range, Bool.not_eq_true] at h
    obtain ⟨hlen, hidx⟩ := h
    refine List.ext_getElem hlen ?_
    intro i hi1 hi2
    have hx := hidx i hi1
    rwa [List.getD_eq_getElem _ _ hi1, List.getD_eq_getElem _ _ hi2] at hx
  · intro h
    simp only [sigMismatch, h]
    decide

/-! ### Publish-core inversion lemmas -/

theorem handlePublishCore_error_headers (decode : List Nat → List Char) (form : PublishForm)
    (resp : HttpResponse) (h : handlePublishCore decode form = .error resp) :
    resp.headers = jsonContentHeaders := by
  unfold handlePublishCore at h
  simp only [] at h
  repeat' split at h
  all_goals first
    | (injection h with h; subst h; rfl)
    | injection h

theorem handlePublishCore_ok_fields (decode : List Nat → List Char) (form : PublishForm)
    (r : FetchRequest) (h : handlePublishCore decode form = .ok r) :
    ∃ file a u p v, form = ⟨some file, some a, some u, some p, some v⟩ := by
  obtain ⟨pf, ak, ui, pi, vt⟩ := form
  cases pf <;> cases ak <;> cases ui <;> cases pi <;> cases vt <;>
    first
      | exact ⟨_, _, _, _, _, rfl⟩
      | exact Except.noConfusion h

theorem handlePublishCore_ok_cases (decode : List Nat → List Char)
    (file : FileUpload) (a u p v : String) (r : FetchRequest)
    (h : handlePublishCore decode ⟨some file, some a, some u, some p, some v⟩ = .ok r) :
    r = buildFetchRequest a u p v (extOfL (jsOr file.name "").data) file.data ∧
    file.data ≠ [] ∧
    extOfL (jsOr file.name "").data ∈ allowedExtensionsL ∧
    ((extOfL (jsOr file.name "").data = "rbxlx".data ∧
        xmlHeaderOk (decode (file.data.take 2048)) = true) ∨
      (extOfL (jsOr file.name "").data = "rbxl".data ∧
        file.data.take 14 = rbxlMagic)) := by
  unfold handlePublishCore at h
  simp only [] at h
  split at h
  case isTrue h1 => exact Except.noConfusion h
  case isFalse h1 =>
    split at h
    case isTrue h2 => exact Except.noConfusion h
    case isFalse h2 =>
      simp only [Bool.or_eq_true, not_or, Bool.not_eq_true, beq_iff_eq,
        Bool.not_eq_true'] at h2
      obtain ⟨hname, hmem⟩ := h2
      have hmemT : allowedExtensionsL.contains (extOfL (jsOr file.name "").data) = true :=
        eq_true_of_ne_false hmem
      have hmemM : extOfL (jsOr file.name "").data ∈ allowedExtensionsL :=
        List.mem_of_elem_eq_true hmemT
      split at h
      case isTrue h3 => exact Except.noConfusion h
      case isFalse h3 =>
        simp only [beq_iff_eq] at h3
        have hdata : file.data ≠ [] := by
          intro hd
          exact h3 (by simp [hd])
        split at h
        case isTrue hx =>
          split at h
          case isTrue h4 => exact Except.noConfusion h
          case isFalse h4 =>
            injection h with h
            subst h
            have hxml : xmlHeaderOk (decode (file.data.take 2048)) = true := by
              have h5 := eq_false_of_ne_true h4
              simpa using h5
            exact ⟨rfl, hdata, hmemM, .inl ⟨by simpa using hx, hxml⟩⟩
        case isFalse hx =>
          split at h
          case isTrue h4 => exact Except.noConfusion h
          case isFalse h4 =>
            injection h with h
            subst h
            have hext : extOfL (jsOr file.name "").data = "rbxl".data := by
              have hmem' := hmemM
              simp only [allowedExtensionsL, List.mem_cons, List.mem_singleton,
                List.not_mem_nil, or_false] at hmem'
              rcases hmem' with h' | h'
              · exact h'
              · exact absurd (by simpa using h') hx
            refine ⟨rfl, hdata, hmemM, .inr ⟨hext, ?_⟩⟩
            exact (sigMismatch_eq_false_iff file.data).mp (eq_false_of_ne_true h4)

theorem handlePublish_core_error (env : Env) (form : PublishForm) (resp : HttpResponse)
    (h : handlePublishCore env.decode form = .error resp) : handlePublish env form = resp := by
  unfold handlePublish
  rw [h]

theorem publishCalls_core_error (env : Env) (form : PublishForm) (resp : HttpResponse)
    (h : handlePublishCore env.decode form = .error resp) : publishCalls env form = [] := by
  unfold publishCalls
  rw [h]

theorem publishCalls_core_ok (env : Env) (form : PublishForm) (r : FetchRequest)
    (h : handlePublishCore env.decode form = .ok r) : publishCalls env form = [r] := by
  unfold publishCalls
  rw [h]

/-- A stub environment for concrete runs: the upstream answers 200 with the
non-JSON text body "OK", the decoder is the ASCII decoder, `JSON.parse`
always fails, static serving finds nothing. -/
def stubEnv : Env :=
  { fetch := fun _ => .ok 200 "OK"
    assetFetch := fun _ => .err "refused"
    decode := asciiDecode
    jsonParse := fun _ => none
    serveDir := fun _ => .notFound }

/-- C4: a multipart submission missing any of the five required fields is
answered with the 400 missing-fields JSON error and no upstream call is made. -/
theorem C4_missing_field_rejected (env : Env) (form : PublishForm)
    (h : form.placeFile = none ∨ form.apiKey = none ∨ form.universeId = none ∨
      form.placeId = none ∨ form.versionType = none) :
    handlePublish env form = missingFieldsResponse ∧
      (handlePublish env form).status = 400 ∧ publishCalls env form = [] := by
  have hcore : handlePublishCore env.decode form = .error missingFieldsResponse := by
    obtain ⟨pf, ak, ui, pi, vt⟩ := form
    cases pf <;> cases ak <;> cases ui <;> cases pi <;> cases vt <;>
      simp_all [handlePublishCore]
  refine ⟨handlePublish_core_error _ _ _ hcore, ?_, publishCalls_core_error _ _ _ hcore⟩
  rw [handlePublish_core_error _ _ _ hcore]
  rfl

/-- C4 witness: a concrete form with no apiKey field is rejected with the
missing-fields 400 and produces no outbound call. -/
theorem C4_missing_field_rejected_witness :
    handlePublish stubEnv ⟨some ⟨"p.rbxl", rbxlMagic⟩, none, some "1", some "2", some "Saved"⟩ =
        missingFieldsResponse ∧
      (handlePublish stubEnv
        ⟨some ⟨"p.rbxl", rbxlMagic⟩, none, some "1", some "2", some "Saved"⟩).status = 400 ∧
      publishCalls stubEnv
        ⟨some ⟨"p.rbxl", rbxlMagic⟩, none, some "1", some "2", some "Saved"⟩ = [] :=
  C4_missing_field_rejected stubEnv _ (Or.inr (Or.inl rfl))

/-- C9: a string field that is present but equal to the empty string is
treated like an absent field: 400 missing-fields error, no upstream call. -/
theorem C9_empty_string_field_rejected (env : Env) (form : PublishForm)
    (h : form.apiKey = some "" ∨ form.universeId = some "" ∨ form.placeId = some "" ∨
      form.versionType = some "") :
    handlePublish env form = missingFieldsResponse ∧
      (handlePublish env form).status = 400 ∧ publishCalls env form = [] := by
  have hcore : handlePublishCore env.decode form = .error missingFieldsResponse := by
    obtain ⟨pf, ak, ui, pi, vt⟩ := form
    simp only [] at h
    rcases h with h | h | h | h
    · subst h; cases pf <;> cases ui <;> cases pi <;> cases vt <;> simp [handlePublishCore]
    · subst h; cases pf <;> cases ak <;> cases pi <;> cases vt <;> simp [handlePublishCore]
    · subst h; cases pf <;> cases ak <;> cases ui <;> cases vt <;> simp [handlePublishCore]
    · subst h; cases pf <;> cases ak <;> cases ui <;> cases pi <;> simp [handlePublishCore]
  refine ⟨handlePublish_core_error _ _ _ hcore, ?_, publishCalls_core_error _ _ _ hcore⟩
  rw [handlePublish_core_error _ _ _ hcore]
  rfl

/-- C9 witness: a concrete form whose versionType is the empty string is
rejected with the missing-fields 400 and produces no outbound call. -/
theorem C9_empty_string_field_rejected_witness :
    handlePublish stubEnv ⟨some ⟨"p.rbxl", rbxlMagic⟩, some "k", some "1", some "2", some ""⟩ =
        missingFieldsResponse ∧
      (handlePublish stubEnv
        ⟨some ⟨"p.rbxl", rbxlMagic⟩, some "k", some "1", some "2", some ""⟩).status = 400 ∧
      publishCalls stubEnv
        ⟨some ⟨"p.rbxl", rbxlMagic⟩, some "k", some "1", some "2", some ""⟩ = [] :=
  C9_empty_string_field_rejected stubEnv _ (Or.inr (Or.inr (Or.inr rfl)))

theorem jsOr_empty_right (s : String) : jsOr s "" = s := by
  unfold jsOr
  split
  next h => exact (eq_of_beq h).symm
  next => rfl

/-- An environment whose publish fetch throws a network-level error. -/
def netFailEnv : Env :=
  { stubEnv with fetch := fun _ => .nerr "error sending request for url" }

/-- A fully valid binary publish form. -/
def validBinaryForm : PublishForm :=
  ⟨some ⟨"place.rbxl", rbxlMagic⟩, some "key", some "100", some "200", some "Published"⟩

/-- The request that `validBinaryForm` produces. -/
def validBinaryRequest : FetchRequest :=
  buildFetchRequest "key" "100" "200" "Published" ("rbxl".data) rbxlMagic

/-- C1 counterexample: a publish request that passes normalization and
signature validation (the upstream call is issued) but whose fetch throws a
network error is answered with status 500, not 502. -/
theorem C1_counterexample_network_error_is_500 :
    (publishCalls netFailEnv validBinaryForm).length = 1 ∧
    (handlePublish netFailEnv validBinaryForm).status = 500 ∧
    (handlePublish netFailEnv validBinaryForm).status ≠ 502 :=
  ⟨rfl, rfl, by decide⟩

/-- C1 amended: when the outbound publish fetch throws a network-level error,
the handler returns HTTP 500 (the generic catch-all) with a JSON body whose
`error` field is `Server error: ` followed by the thrown message. -/
theorem C1_amended_network_error_500 (env : Env) (form : PublishForm) (r : FetchRequest)
    (msg : String) (hcore : handlePublishCore env.decode form = .ok r)
    (hfetch : env.fetch r = .nerr msg) :
    handlePublish env form = jsonErrorResponse ("Server error: " ++ msg) 500 ∧
      (handlePublish env form).status = 500 := by
  have hp : handlePublish env form = jsonErrorResponse ("Server error: " ++ msg) 500 := by
    unfold handlePublish
    rw [hcore]
    simp only [hfetch]
  refine ⟨hp, ?_⟩
  rw [hp]
  rfl

/-- C1 amended witness: the concrete valid binary form under the failing
fetch produces exactly the 500 `Server error:` response. -/
theorem C1_amended_network_error_500_witness :
    handlePublish netFailEnv validBinaryForm =
        jsonErrorResponse ("Server error: " ++ "error sending request for url") 500 ∧
      (handlePublish netFailEnv validBinaryForm).status = 500 :=
  C1_amended_network_error_500 netFailEnv validBinaryForm validBinaryRequest
    "error sending request for url" rfl rfl

theorem rbxl_mem_allowed : (['r', 'b', 'x', 'l'] : List Char) ∈ allowedExtensionsL := by
  decide

theorem rbxlx_mem_allowed : (['r', 'b', 'x', 'l', 'x'] : List Char) ∈ allowedExtensionsL := by
  decide

theorem rbxl_ne_rbxlx : (['r', 'b', 'x', 'l'] : List Char) ≠ ['r', 'b', 'x', 'l', 'x'] := by
  decide

/-- Core evaluation: an rbxlx-declared nonempty payload whose decoded head
fails the XML check is answered with the XML-header error. -/
theorem publishCore_xml_reject (decode : List Nat → List Char) (file : FileUpload)
    (a u p v : String) (ha : a ≠ "") (hu : u ≠ "") (hp : p ≠ "") (hv : v ≠ "")
    (hext : extOfL (jsOr file.name "").data = "rbxlx".data) (hdata : file.data ≠ [])
    (hxml : xmlHeaderOk (decode (file.data.take 2048)) = false) :
    handlePublishCore decode ⟨some file, some a, some u, some p, some v⟩ =
      .error xmlHeaderResponse := by
  have hname : (jsOr file.name "").data ≠ [] := by
    intro h0
    rw [h0] at hext
    exact absurd hext (by decide)
  unfold handlePublishCore
  simp only []
  simp [ha, hu, hp, hv, hname, hext, hdata, hxml, rbxlx_mem_allowed]

/-- Core evaluation: an rbxlx-declared nonempty payload whose decoded head
passes the XML check reaches the upstream call. -/
theorem publishCore_xml_accept (decode : List Nat → List Char) (file : FileUpload)
    (a u p v : String) (ha : a ≠ "") (hu : u ≠ "") (hp : p ≠ "") (hv : v ≠ "")
    (hext : extOfL (jsOr file.name "").data = "rbxlx".data) (hdata : file.data ≠ [])
    (hxml : xmlHeaderOk (decode (file.data.take 2048)) = true) :
    handlePublishCore decode ⟨some file, some a, some u, some p, some v⟩ =
      .ok (buildFetchRequest a u p v (extOfL (jsOr file.name "").data) file.data) := by
  have hname : (jsOr file.name "").data ≠ [] := by
    intro h0
    rw [h0] at hext
    exact absurd hext (by decide)
  unfold handlePublishCore
  simp only []
  simp [ha, hu, hp, hv, hname, hext, hdata, hxml, rbxlx_mem_allowed]

/-- Core evaluation: an rbxl-declared nonempty payload with a mismatching
signature is answered with the signature error. -/
theorem publishCore_bin_sig_reject (decode : List Nat → List Char) (file : FileUpload)
    (a u p v : String) (ha : a ≠ "") (hu : u ≠ "") (hp : p ≠ "") (hv : v ≠ "")
    (hext : extOfL (jsOr file.name "").data = "rbxl".data) (hdata : file.data ≠ [])
    (hsig : sigMismatch file.data = true) :
    handlePublishCore decode ⟨some file, some a, some u, some p, some v⟩ =
      .error signatureResponse := by
  have hname : (jsOr file.name "").data ≠ [] := by
    intro h0
    rw [h0] at hext
    exact absurd hext (by decide)
  unfold handlePublishCore
  simp only []
  simp [ha, hu, hp, hv, hname, hext, rbxl_mem_allowed, rbxl_ne_rbxlx, hdata, hsig]

/-- Core evaluation: an rbxl-declared payload whose first 14 bytes equal the
magic reaches the upstream call. -/
theorem publishCore_bin_accept (decode : List Nat → List Char) (file : FileUpload)
    (a u p v : String) (ha : a ≠ "") (hu : u ≠ "") (hp : p ≠ "") (hv : v ≠ "")
    (hext : extOfL (jsOr file.name "").data = "rbxl".data)
    (hmagic : file.data.take 14 = rbxlMagic) :
    handlePublishCore decode ⟨some file, some a, some u, some p, some v⟩ =
      .ok (buildFetchRequest a u p v (extOfL (jsOr file.name "").data) file.data) := by
  have hname : (jsOr file.name "").data ≠ [] := by
    intro h0
    rw [h0] at hext
    exact absurd hext (by decide)
  have hdata : file.data ≠ [] := by
    intro h0
    rw [h0] at hmagic
    exact absurd hmagic (by decide)
  have hsig : sigMismatch file.data = false := (sigMismatch_eq_false_iff _).mpr hmagic
  unfold handlePublishCore
  simp only []
  simp [ha, hu, hp, hv, hname, hext, rbxl_mem_allowed, rbxl_ne_rbxlx, hdata, hsig]

/-- The `<robloxBAD>` payload of the spec example, declared as rbxlx. -/
def robloxBadForm : PublishForm :=
  ⟨some ⟨"place.rbxlx", strToBytes "<robloxBAD><Item></Item></roblox>"⟩,
    some "k", some "1", some "2", some "Saved"⟩

/-- C2 counterexample: the payload `<robloxBAD>...` (no declaration, wrong
root element) passes the XML-header validation, because the check only
requires the prefix `<roblox`: the pipeline calls upstream and returns the
stub upstream status 200, not a 400. -/
theorem C2_counterexample_robloxBAD_accepted :
    (handlePublish stubEnv robloxBadForm).status = 200 ∧
    (handlePublish stubEnv robloxBadForm).status ≠ 400 ∧
    (publishCalls stubEnv robloxBadForm).length = 1 :=
  ⟨rfl, by decide, rfl⟩

/-- C2 amended: for an rbxlx-declared payload with all fields present and a
nonempty body, validation fails with the 400 XML-header error exactly when,
after optionally skipping a leading XML declaration and trimming whitespace
in the first 2048 bytes, the content does not begin with the literal
7-character prefix `<roblox`; a payload such as `<robloxBAD>` begins with that
prefix and is accepted (the upstream call is made). -/
theorem C2_amended_xml_header_check (env : Env) (file : FileUpload) (a u p v : String)
    (ha : a ≠ "") (hu : u ≠ "") (hp : p ≠ "") (hv : v ≠ "")
    (hext : extOfL (jsOr file.name "").data = "rbxlx".data)
    (hdata : file.data ≠ []) :
    (xmlHeaderOk (env.decode (file.data.take 2048)) = false →
      handlePublish env ⟨some file, some a, some u, some p, some v⟩ = xmlHeaderResponse ∧
      (handlePublish env ⟨some file, some a, some u, some p, some v⟩).status = 400 ∧
      publishCalls env ⟨some file, some a, some u, some p, some v⟩ = []) ∧
    (xmlHeaderOk (env.decode (file.data.take 2048)) = true →
      publishCalls env ⟨some file, some a, some u, some p, some v⟩ =
        [buildFetchRequest a u p v (extOfL (jsOr file.name "").data) file.data]) := by
  constructor
  · intro hxml
    have hcore := publishCore_xml_reject env.decode file a u p v ha hu hp hv hext hdata hxml
    refine ⟨handlePublish_core_error _ _ _ hcore, ?_, publishCalls_core_error _ _ _ hcore⟩
    rw [handlePublish_core_error _ _ _ hcore]
    rfl
  · intro hxml
    have hcore := publishCore_xml_accept env.decode file a u p v ha hu hp hv hext hdata hxml
    exact publishCalls_core_ok _ _ _ hcore

/-- C2 amended witness: a wrong-root payload `<notroblox>` is rejected with
the XML-header 400, and the `<robloxBAD>` payload is accepted and forwarded. -/
theorem C2_amended_xml_header_check_witness :
    (handlePublish stubEnv
        ⟨some ⟨"p.rbxlx", strToBytes "<notroblox><Item></Item>"⟩,
          some "k", some "1", some "2", some "S"⟩ = xmlHeaderResponse ∧
      (handlePublish stubEnv
        ⟨some ⟨"p.rbxlx", strToBytes "<notroblox><Item></Item>"⟩,
          some "k", some "1", some "2", some "S"⟩).status = 400 ∧
      publishCalls stubEnv
        ⟨some ⟨"p.rbxlx", strToBytes "<notroblox><Item></Item>"⟩,
          some "k", some "1", some "2", some "S"⟩ = []) ∧
    publishCalls stubEnv robloxBadForm =
      [buildFetchRequest "k" "1" "2" "Saved"
        (extOfL (jsOr "place.rbxlx" "").data)
        (strToBytes "<robloxBAD><Item></Item></roblox>")] :=
  ⟨(C2_amended_xml_header_check stubEnv ⟨"p.rbxlx", strToBytes "<notroblox><Item></Item>"⟩
      "k" "1" "2" "S" (by decide) (by decide) (by decide) (by decide)
      (by decide) (by decide)).1 (by decide),
   (C2_amended_xml_header_check stubEnv
      ⟨"place.rbxlx", strToBytes "<robloxBAD><Item></Item></roblox>"⟩
      "k" "1" "2" "Saved" (by decide) (by decide) (by decide) (by decide)
      (by decide) (by decide)).2 (by decide)⟩

/-- A dotless filename that is itself `rbxl`. -/
def dotlessForm : PublishForm :=
  ⟨some ⟨"rbxl", rbxlMagic⟩, some "k", some "1", some "2", some "Saved"⟩

/-- C3 counterexample: a file whose name `rbxl` contains no dot (hence has no
extension) is accepted by the extension check and forwarded upstream, because
`split('.').pop()` returns the whole dotless name. -/
theorem C3_counterexample_dotless_name_accepted :
    ('.' ∈ "rbxl".data → False) ∧
    (handlePublish stubEnv dotlessForm).status = 200 ∧
    (handlePublish stubEnv dotlessForm).status ≠ 400 ∧
    (publishCalls stubEnv dotlessForm).length = 1 :=
  ⟨by decide, rfl, by decide, rfl⟩

/-- C3 amended: with all five fields present (and nonempty strings), the
submission is rejected with the 400 extension error and no upstream call
exactly when the filename is empty or the lowercased last dot-separated
segment of the name is outside {rbxl, rbxlx}; a dotless filename whose whole
name lowercases to rbxl or rbxlx is accepted by the extension check. -/
theorem C3_amended_extension_check (env : Env) (file : FileUpload) (a u p v : String)
    (ha : a ≠ "") (hu : u ≠ "") (hp : p ≠ "") (hv : v ≠ "")
    (hbad : (jsOr file.name "").data = [] ∨
      extOfL (jsOr file.name "").data ∉ allowedExtensionsL) :
    handlePublish env ⟨some file, some a, some u, some p, some v⟩ = extensionResponse ∧
      (handlePublish env ⟨some file, some a, some u, some p, some v⟩).status = 400 ∧
      publishCalls env ⟨some file, some a, some u, some p, some v⟩ = [] := by
  have hcore : handlePublishCore env.decode ⟨some file, some a, some u, some p, some v⟩ =
      .error extensionResponse := by
    unfold handlePublishCore
    simp only []
    rcases hbad with h | h <;> simp [ha, hu, hp, hv, h]
  refine ⟨handlePublish_core_error _ _ _ hcore, ?_, publishCalls_core_error _ _ _ hcore⟩
  rw [handlePublish_core_error _ _ _ hcore]
  rfl

/-- C3 amended witness: a `.txt` upload is rejected with the extension 400
and no upstream call. -/
theorem C3_amended_extension_check_witness :
    handlePublish stubEnv ⟨some ⟨"file.txt", [60]⟩, some "k", some "1", some "2", some "S"⟩ =
        extensionResponse ∧
      (handlePublish stubEnv
        ⟨some ⟨"file.txt", [60]⟩, some "k", some "1", some "2", some "S"⟩).status = 400 ∧
      publishCalls stubEnv
        ⟨some ⟨"file.txt", [60]⟩, some "k", some "1", some "2", some "S"⟩ = [] :=
  C3_amended_extension_check stubEnv ⟨"file.txt", [60]⟩ "k" "1" "2" "S"
    (by decide) (by decide) (by decide) (by decide) (Or.inr (by decide))

/-- C5: for a binary-declared (rbxl) payload with all fields present, the
upstream is called only if the first 14 bytes equal the magic signature, and
any mismatch (including payloads shorter than 14 bytes, and the empty payload
caught by the empty-file check) is rejected with HTTP 400 before any call. -/
theorem C5_binary_signature_gate (env : Env) (file : FileUpload) (a u p v : String)
    (ha : a ≠ "") (hu : u ≠ "") (hp : p ≠ "") (hv : v ≠ "")
    (hext : extOfL (jsOr file.name "").data = "rbxl".data) :
    (publishCalls env ⟨some file, some a, some u, some p, some v⟩ ≠ [] →
      file.data.take 14 = rbxlMagic) ∧
    (file.data.take 14 ≠ rbxlMagic →
      (handlePublish env ⟨some file, some a, some u, some p, some v⟩).status = 400 ∧
      publishCalls env ⟨some file, some a, some u, some p, some v⟩ = []) := by
  have hname : (jsOr file.name "").data ≠ [] := by
    intro h0
    rw [h0] at hext
    exact absurd hext (by decide)
  constructor
  · intro hcalls
    rcases hok : handlePublishCore env.decode ⟨some file, some a, some u, some p, some v⟩
      with resp | r
    · exact absurd (publishCalls_core_error _ _ _ hok) hcalls
    · rcases handlePublishCore_ok_cases _ _ _ _ _ _ _ hok with ⟨_, _, _, hcase⟩
      rcases hcase with ⟨hx, _⟩ | ⟨_, hmagic⟩
      · exact absurd (hext.symm.trans hx) (by decide)
      · exact hmagic
  · intro hmis
    by_cases hd : file.data = []
    · have hcore : handlePublishCore env.decode ⟨some file, some a, some u, some p, some v⟩ =
          .error emptyFileResponse := by
        unfold handlePublishCore
        simp only []
        simp [ha, hu, hp, hv, hname, hext, rbxl_mem_allowed, hd]
      refine ⟨?_, publishCalls_core_error _ _ _ hcore⟩
      rw [handlePublish_core_error _ _ _ hcore]
      rfl
    · have hsig : sigMismatch file.data = true := by
        cases h5 : sigMismatch file.data
        · exact absurd ((sigMismatch_eq_false_iff _).mp h5) hmis
        · rfl
      have hcore := publishCore_bin_sig_reject env.decode file a u p v ha hu hp hv hext hd hsig
      refine ⟨?_, publishCalls_core_error _ _ _ hcore⟩
      rw [handlePublish_core_error _ _ _ hcore]
      rfl

/-- C5 witness: a 3-byte rbxl payload (shorter than the magic) is rejected
with status 400 and no upstream call. -/
theorem C5_binary_signature_gate_witness :
    (handlePublish stubEnv
        ⟨some ⟨"p.rbxl", [1, 2, 3]⟩, some "k", some "1", some "2", some "S"⟩).status = 400 ∧
      publishCalls stubEnv
        ⟨some ⟨"p.rbxl", [1, 2, 3]⟩, some "k", some "1", some "2", some "S"⟩ = [] :=
  (C5_binary_signature_gate stubEnv ⟨"p.rbxl", [1, 2, 3]⟩ "k" "1" "2" "S"
    (by decide) (by decide) (by decide) (by decide) (by decide)).2 (by decide)

/-- C6: every publish request that passes all validation issues exactly one
outbound POST whose body is the uploaded bytes unchanged, and whose
Content-Type is the matched pair of the declared extension (rbxlx ↦
application/xml, rbxl ↦ application/octet-stream); no other combination is
emitted. -/
theorem C6_single_post_matched_pair (env : Env) (form : PublishForm) (r : FetchRequest)
    (h : handlePublishCore env.decode form = .ok r) :
    publishCalls env form = [r] ∧ r.method = "POST" ∧
    ∃ file, form.placeFile = some file ∧ r.body = file.data ∧
      ((extOfL (jsOr file.name "").data = "rbxlx".data ∧
        getHeader r.headers "Content-Type" = some "application/xml") ∨
       (extOfL (jsOr file.name "").data = "rbxl".data ∧
        getHeader r.headers "Content-Type" = some "application/octet-stream")) := by
  obtain ⟨file, a, u, p, v, rfl⟩ := handlePublishCore_ok_fields _ _ _ h
  obtain ⟨hr, hdata, hmem, hcase⟩ := handlePublishCore_ok_cases _ _ _ _ _ _ _ h
  refine ⟨publishCalls_core_ok _ _ _ h, ?_, file, rfl, ?_, ?_⟩
  · rw [hr]
    rfl
  · rw [hr]
    rfl
  · rcases hcase with ⟨hx, _⟩ | ⟨hx, _⟩
    · left
      refine ⟨hx, ?_⟩
      rw [hr, hx]
      rfl
    · right
      refine ⟨hx, ?_⟩
      rw [hr, hx]
      rfl

/-- C6 witness: the concrete valid binary form issues exactly its request,
with POST method, the raw magic body, and octet-stream content type. -/
theorem C6_single_post_matched_pair_witness :
    publishCalls stubEnv validBinaryForm = [validBinaryRequest] ∧
      validBinaryRequest.method = "POST" ∧
      ∃ file, validBinaryForm.placeFile = some file ∧ validBinaryRequest.body = file.data ∧
        ((extOfL (jsOr file.name "").data = "rbxlx".data ∧
          getHeader validBinaryRequest.headers "Content-Type" = some "application/xml") ∨
         (extOfL (jsOr file.name "").data = "rbxl".data ∧
          getHeader validBinaryRequest.headers "Content-Type" =
            some "application/octet-stream")) :=
  C6_single_post_matched_pair stubEnv validBinaryForm validBinaryRequest rfl

/-- C7: the upstream response is translated with its status code preserved
and JSON content type; a body that parses as JSON is forwarded as-is, any
other body text t becomes the envelope with message t (the empty string when
the body was empty). -/
theorem C7_response_translation (env : Env) (form : PublishForm) (r : FetchRequest)
    (st : Nat) (txt : String)
    (hcore : handlePublishCore env.decode form = .ok r)
    (hfetch : env.fetch r = .ok st txt) :
    (handlePublish env form).status = st ∧
    getHeader (handlePublish env form).headers "Content-Type" = some "application/json" ∧
    (∀ j, env.jsonParse txt = some j → (handlePublish env form).body = .jsonBody j) ∧
    (env.jsonParse txt = none →
      (handlePublish env form).body = .jsonBody (.obj [("message", .str txt)])) := by
  have hp : handlePublish env form =
      HttpResponse.mk st jsonContentHeaders
        (.jsonBody (translateBody (env.jsonParse txt) txt)) := by
    unfold handlePublish
    rw [hcore]
    simp only [hfetch]
  rw [hp]
  refine ⟨rfl, rfl, ?_, ?_⟩
  · intro j hj
    simp [translateBody, hj]
  · intro hj
    simp [translateBody, hj, jsOr_empty_right]

/-- C7 witness: the stub upstream answers 200 with the non-JSON body "OK",
and the caller receives status 200 with body message "OK". -/
theorem C7_response_translation_witness :
    (handlePublish stubEnv validBinaryForm).status = 200 ∧
      getHeader (handlePublish stubEnv validBinaryForm).headers "Content-Type" =
        some "application/json" ∧
      (∀ j, stubEnv.jsonParse "OK" = some j →
        (handlePublish stubEnv validBinaryForm).body = .jsonBody j) ∧
      (stubEnv.jsonParse "OK" = none →
        (handlePublish stubEnv validBinaryForm).body =
          .jsonBody (.obj [("message", .str "OK")])) :=
  C7_response_translation stubEnv validBinaryForm validBinaryRequest 200 "OK" rfl rfl

/-- C10: the extension check lowercases the last dot-separated segment, so any
letter-case variant of rbxl (resp. rbxlx) is accepted and classified as the
binary (resp. XML) kind, both for which signature validation runs and for the
upstream Content-Type. -/
theorem C10_case_insensitive_extension (env : Env) (file : FileUpload) (a u p v : String)
    (ha : a ≠ "") (hu : u ≠ "") (hp : p ≠ "") (hv : v ≠ "") :
    (extOfL (jsOr file.name "").data = "rbxl".data →
      (file.data.take 14 = rbxlMagic →
        publishCalls env ⟨some file, some a, some u, some p, some v⟩ =
          [buildFetchRequest a u p v ("rbxl".data) file.data] ∧
        getHeader (buildFetchRequest a u p v ("rbxl".data) file.data).headers "Content-Type" =
          some "application/octet-stream") ∧
      (file.data ≠ [] → file.data.take 14 ≠ rbxlMagic →
        handlePublish env ⟨some file, some a, some u, some p, some v⟩ = signatureResponse)) ∧
    (extOfL (jsOr file.name "").data = "rbxlx".data →
      (file.data ≠ [] → xmlHeaderOk (env.decode (file.data.take 2048)) = true →
        publishCalls env ⟨some file, some a, some u, some p, some v⟩ =
          [buildFetchRequest a u p v ("rbxlx".data) file.data] ∧
        getHeader (buildFetchRequest a u p v ("rbxlx".data) file.data).headers "Content-Type" =
          some "application/xml") ∧
      (file.data ≠ [] → xmlHeaderOk (env.decode (file.data.take 2048)) = false →
        handlePublish env ⟨some file, some a, some u, some p, some v⟩ = xmlHeaderResponse)) := by
  constructor
  · intro hext
    constructor
    · intro hmagic
      have hcore := publishCore_bin_accept env.decode file a u p v ha hu hp hv hext hmagic
      rw [hext] at hcore
      exact ⟨publishCalls_core_ok _ _ _ hcore, rfl⟩
    · intro hdata hmis
      have hsig : sigMismatch file.data = true := by
        cases h5 : sigMismatch file.data
        · exact absurd ((sigMismatch_eq_false_iff _).mp h5) hmis
        · rfl
      have hcore := publishCore_bin_sig_reject env.decode file a u p v ha hu hp hv hext hdata hsig
      exact handlePublish_core_error _ _ _ hcore
  · intro hext
    constructor
    · intro hdata hxml
      have hcore := publishCore_xml_accept env.decode file a u p v ha hu hp hv hext hdata hxml
      rw [hext] at hcore
      exact ⟨publishCalls_core_ok _ _ _ hcore, rfl⟩
    · intro hdata hxml
      have hcore := publishCore_xml_reject env.decode file a u p v ha hu hp hv hext hdata hxml
      exact handlePublish_core_error _ _ _ hcore

/-- C10 witness: `place.RBXL` is accepted as binary (octet-stream upstream),
`model.RbXlX` is accepted as XML (xml upstream). -/
theorem C10_case_insensitive_extension_witness :
    publishCalls stubEnv
        ⟨some ⟨"place.RBXL", rbxlMagic⟩, some "k", some "1", some "2", some "S"⟩ =
      [buildFetchRequest "k" "1" "2" "S" ("rbxl".data) rbxlMagic] ∧
    getHeader (buildFetchRequest "k" "1" "2" "S" ("rbxl".data) rbxlMagic).headers
        "Content-Type" = some "application/octet-stream" ∧
    publishCalls stubEnv
        ⟨some ⟨"model.RbXlX", strToBytes "<roblox></roblox>"⟩,
          some "k", some "1", some "2", some "S"⟩ =
      [buildFetchRequest "k" "1" "2" "S" ("rbxlx".data) (strToBytes "<roblox></roblox>")] ∧
    getHeader (buildFetchRequest "k" "1" "2" "S" ("rbxlx".data)
        (strToBytes "<roblox></roblox>")).headers "Content-Type" =
      some "application/xml" := by
  have h1 := ((C10_case_insensitive_extension stubEnv ⟨"place.RBXL", rbxlMagic⟩ "k" "1" "2" "S"
    (by decide) (by decide) (by decide) (by decide)).1 (by decide)).1 (by decide)
  have h2 := ((C10_case_insensitive_extension stubEnv
    ⟨"model.RbXlX", strToBytes "<roblox></roblox>"⟩ "k" "1" "2" "S"
    (by decide) (by decide) (by decide) (by decide)).2 (by decide)).1 (by decide) (by decide)
  exact ⟨h1.1, h1.2, h2.1, h2.2⟩

/-! ### Dispatcher-level CORS lemmas -/

theorem corsOkH_handlePublish (env : Env) (form : PublishForm) :
    corsOkH (handlePublish env form).headers := by
  unfold handlePublish
  rcases h : handlePublishCore env.decode form with resp | r
  · rw [handlePublishCore_error_headers _ _ _ h]
    exact corsOkH_jsonContentHeaders
  · simp only []
    rcases env.fetch r with _ | _
    · exact corsOkH_jsonContentHeaders
    · exact corsOkH_jsonContentHeaders

theorem corsOkH_handleAssetProxy (env : Env) (u? : Option String) :
    corsOkH (handleAssetProxy env u?).headers := by
  unfold handleAssetProxy
  simp only []
  split
  · exact corsOkH_jsonContentHeaders
  · split
    · exact corsOkH_jsonContentHeaders
    · rcases env.assetFetch (u?.getD "") with ⟨st, hs, b⟩ | msg
      · exact corsOkH_applyCors hs
      · exact corsOkH_jsonContentHeaders

/-- C8: every response produced by the server, on every route and outcome,
carries the three fixed cross-origin headers, and every OPTIONS request on
any path is answered 204 with an empty body and exactly those headers. -/
theorem C8_cors_on_every_response (env : Env) (req : ServerRequest) :
    corsOkH (serve env req).headers ∧
    (req.method = "OPTIONS" →
      (serve env req).status = 204 ∧ (serve env req).body = .empty ∧
      (serve env req).headers = corsHeaders) := by
  unfold serve
  split
  case isTrue hm => exact ⟨corsOkH_corsHeaders, fun _ => ⟨rfl, rfl, rfl⟩⟩
  case isFalse hm =>
    have hm' : ¬ req.method = "OPTIONS" := by simpa using hm
    refine ⟨?_, fun hopt => absurd hopt hm'⟩
    split
    · exact corsOkH_handlePublish env req.form
    · split
      · exact corsOkH_handleAssetProxy env req.urlParam
      · exact corsOkH_applyCors _

/-- A concrete OPTIONS preflight request. -/
def optionsReq : ServerRequest :=
  ⟨"OPTIONS", "/anything", none, ⟨none, none, none, none, none⟩⟩

/-- C8 witness: a concrete OPTIONS request is answered 204, with empty body
and exactly the cross-origin headers. -/
theorem C8_cors_on_every_response_witness :
    corsOkH (serve stubEnv optionsReq).headers ∧
      (serve stubEnv optionsReq).status = 204 ∧ (serve stubEnv optionsReq).body = .empty ∧
      (serve stubEnv optionsReq).headers = corsHeaders :=
  ⟨(C8_cors_on_every_response stubEnv optionsReq).1,
    (C8_cors_on_every_response stubEnv optionsReq).2 rfl⟩

end RbxGateway
